import Mathlib

/-!
Verification of the banana-slides backend against its specification.

Each Python function under scrutiny is shallowly embedded as an executable
Lean definition translated from the source (`src/backend/...`). Machine
arithmetic follows Python semantics: `/` on numbers is exact division
(modelled in `ℚ`), `int(...)` truncates toward zero, and container
operations are modelled on lists.
-/

namespace BananaSlides

/-! ## Coordinate mapping (`src/backend/utils/coordinate_utils.py`)

`CoordinateMapper.scale_bbox` computes `scale_x = target_w / source_w`,
`scale_y = target_h / source_h` (Python true division, modelled exactly in
`ℚ`) and truncates each scaled coordinate with `int(...)` (truncation
toward zero). A bbox whose length is not 4 is returned unchanged. -/

/-- Python `int(q)` on a number `q`: truncation toward zero. -/
def pytrunc (q : ℚ) : ℤ := if q < 0 then ⌈q⌉ else ⌊q⌋

/-- One coordinate of `scale_bbox`: `int(x * (t / s))`. -/
def scaleCoord (x s t : ℤ) : ℤ := pytrunc ((x : ℚ) * ((t : ℚ) / (s : ℚ)))

/-- `CoordinateMapper.scale_bbox(bbox, source_size, target_size)`
(coordinate_utils.py lines 158-187). -/
def scale_bbox (bbox : List ℤ) (source target : ℤ × ℤ) : List ℤ :=
  match bbox with
  | [x0, y0, x1, y1] =>
      [scaleCoord x0 source.1 target.1, scaleCoord y0 source.2 target.2,
       scaleCoord x1 source.1 target.1, scaleCoord y1 source.2 target.2]
  | _ => bbox

/-- "within 1 integer-rounding unit per coordinate", as in the spec. -/
def within1 (a b : List ℤ) : Prop :=
  a.length = b.length ∧ ∀ p ∈ a.zip b, |p.1 - p.2| ≤ 1

instance (a b : List ℤ) : Decidable (within1 a b) := by
  unfold within1; infer_instance

theorem pytrunc_neg (q : ℚ) : pytrunc (-q) = - pytrunc q := by
  unfold pytrunc
  rcases lt_trichotomy q 0 with h | h | h
  · rw [if_neg (by linarith), if_pos h, Int.floor_neg]
  · simp [h]
  · rw [if_pos (by linarith), if_neg (by linarith), Int.ceil_neg]

theorem pytrunc_of_nonneg (q : ℚ) (h : 0 ≤ q) : pytrunc q = ⌊q⌋ :=
  if_neg (not_lt.mpr h)

theorem scaleCoord_neg (x s t : ℤ) : scaleCoord (-x) s t = - scaleCoord x s t := by
  unfold scaleCoord
  rw [show ((-x : ℤ) : ℚ) = -(x : ℚ) by push_cast; ring, neg_mul, pytrunc_neg]

theorem scaleCoord_roundtrip_nonneg (x s t : ℤ) (hx : 0 ≤ x) (hs : 0 < s)
    (hst : s ≤ t) : |scaleCoord (scaleCoord x s t) t s - x| ≤ 1 := by
  have ht : 0 < t := lt_of_lt_of_le hs hst
  have hsQ : (0 : ℚ) < (s : ℚ) := by exact_mod_cast hs
  have htQ : (0 : ℚ) < (t : ℚ) := by exact_mod_cast ht
  have hxQ : (0 : ℚ) ≤ (x : ℚ) := by exact_mod_cast hx
  set q : ℚ := (x : ℚ) * ((t : ℚ) / (s : ℚ)) with hq_def
  have hq : 0 ≤ q := mul_nonneg hxQ (le_of_lt (div_pos htQ hsQ))
  have h1 : scaleCoord x s t = ⌊q⌋ := pytrunc_of_nonneg q hq
  have hfq : (0 : ℚ) ≤ ((⌊q⌋ : ℤ) : ℚ) := by
    exact_mod_cast Int.le_floor.mpr (by exact_mod_cast hq)
  set r : ℚ := ((⌊q⌋ : ℤ) : ℚ) * ((s : ℚ) / (t : ℚ)) with hr_def
  have hr : 0 ≤ r := mul_nonneg hfq (le_of_lt (div_pos hsQ htQ))
  have h2 : scaleCoord (⌊q⌋) t s = ⌊r⌋ := pytrunc_of_nonneg r hr
  -- upper bound: r ≤ x, hence ⌊r⌋ ≤ x
  have hupper : ⌊r⌋ ≤ x := by
    have hrle : r ≤ (x : ℚ) := by
      have h3 : ((⌊q⌋ : ℤ) : ℚ) ≤ q := Int.floor_le q
      have h4 : r ≤ q * ((s : ℚ) / (t : ℚ)) :=
        mul_le_mul_of_nonneg_right h3 (le_of_lt (div_pos hsQ htQ))
      have h5 : q * ((s : ℚ) / (t : ℚ)) = (x : ℚ) := by
        rw [hq_def]; field_simp
      linarith
    calc ⌊r⌋ ≤ ⌊(x : ℚ)⌋ := Int.floor_le_floor hrle
    _ = x := Int.floor_intCast x
  -- lower bound: r > x - 1, hence x - 1 ≤ ⌊r⌋
  have hlower : x - 1 ≤ ⌊r⌋ := by
    have h3 : q - 1 < ((⌊q⌋ : ℤ) : ℚ) := Int.sub_one_lt_floor q
    have hpos : (0 : ℚ) < (s : ℚ) / (t : ℚ) := div_pos hsQ htQ
    have h4 : (q - 1) * ((s : ℚ) / (t : ℚ)) < r :=
      mul_lt_mul_of_pos_right h3 hpos
    have h5 : q * ((s : ℚ) / (t : ℚ)) = (x : ℚ) := by
      rw [hq_def]; field_simp
    have h6 : (s : ℚ) / (t : ℚ) ≤ 1 := by
      rw [div_le_one htQ]; exact_mod_cast hst
    have h7 : (x : ℚ) - 1 < r := by nlinarith
    exact Int.le_floor.mpr (by push_cast; linarith)
  rw [h1, h2, abs_le]
  omega

theorem scaleCoord_roundtrip (x s t : ℤ) (hs : 0 < s) (hst : s ≤ t) :
    |scaleCoord (scaleCoord x s t) t s - x| ≤ 1 := by
  rcases le_or_lt 0 x with hx | hx
  · exact scaleCoord_roundtrip_nonneg x s t hx hs hst
  · have h0 : 0 ≤ -x := by omega
    have h1 := scaleCoord_roundtrip_nonneg (-x) s t h0 hs hst
    rw [scaleCoord_neg, scaleCoord_neg] at h1
    have h2 : -scaleCoord (scaleCoord x s t) t s - -x
        = -(scaleCoord (scaleCoord x s t) t s - x) := by ring
    rw [h2, abs_neg] at h1
    exact h1

/-- C1 counterexample: scaling bbox `[50,50,60,60]` from `(100,100)` down to
`(1,1)` and back yields `[0,0,0,0]`, which differs from the original by far
more than 1 unit per coordinate. The claimed unconditional round-trip bound
is false. -/
theorem scale_bbox_roundtrip_counterexample :
    scale_bbox (scale_bbox [50, 50, 60, 60] (100, 100) (1, 1)) (1, 1) (100, 100)
        = [0, 0, 0, 0] ∧
    ¬ within1
        (scale_bbox (scale_bbox [50, 50, 60, 60] (100, 100) (1, 1)) (1, 1) (100, 100))
        [50, 50, 60, 60] := by
  have h : scale_bbox (scale_bbox [50, 50, 60, 60] (100, 100) (1, 1)) (1, 1) (100, 100)
      = [0, 0, 0, 0] := by
    norm_num [scale_bbox, scaleCoord, pytrunc]
  refine ⟨h, ?_⟩
  rw [h]
  decide

/-- C1 (amended): for every bbox `[x0,y0,x1,y1]` and positive sizes, if each
target dimension is at least the corresponding source dimension, applying
`scale_bbox` source→target and then target→source recovers the original bbox
to within 1 integer-rounding unit per coordinate. (Shrinking below the
source size can lose arbitrarily much, as the counterexample shows.) -/
theorem scale_bbox_upscale_roundtrip (x0 y0 x1 y1 s1 s2 t1 t2 : ℤ)
    (hs1 : 0 < s1) (hs2 : 0 < s2) (h1 : s1 ≤ t1) (h2 : s2 ≤ t2) :
    within1
      (scale_bbox (scale_bbox [x0, y0, x1, y1] (s1, s2) (t1, t2)) (t1, t2) (s1, s2))
      [x0, y0, x1, y1] := by
  refine ⟨rfl, ?_⟩
  intro p hp
  simp only [scale_bbox, List.zip, List.zipWith, List.mem_cons,
    List.not_mem_nil, or_false] at hp
  rcases hp with h | h | h | h <;> subst h <;> simp only []
  · exact scaleCoord_roundtrip x0 s1 t1 hs1 h1
  · exact scaleCoord_roundtrip y0 s2 t2 hs2 h2
  · exact scaleCoord_roundtrip x1 s1 t1 hs1 h1
  · exact scaleCoord_roundtrip y1 s2 t2 hs2 h2

/-- Witness for the amended C1 theorem at a concrete upscaling input. -/
theorem scale_bbox_upscale_roundtrip_witness :
    ((0 : ℤ) < 2 ∧ (0 : ℤ) < 3 ∧ (2 : ℤ) ≤ 4 ∧ (3 : ℤ) ≤ 9) ∧
    within1
      (scale_bbox (scale_bbox [7, 8, 9, 10] (2, 3) (4, 9)) (4, 9) (2, 3))
      [7, 8, 9, 10] :=
  ⟨by decide,
   scale_bbox_upscale_roundtrip 7 8 9 10 2 3 4 9 (by decide) (by decide)
     (by decide) (by decide)⟩

/-! ## Mask utilities (`src/backend/utils/mask_utils.py`)

`create_mask_from_bboxes` paints a solid background of `image_size` and
draws every accepted bbox as a filled rectangle. A bbox may be a 4-tuple,
an `x1/y1/x2/y2` dict, an `x/y/width/height` dict, or something
unrecognized (skipped). PIL's `ImageDraw.rectangle([x1,y1,x2,y2])` fills
pixels `x1 ≤ px ≤ x2`, `y1 ≤ py ≤ y2` (both corners inclusive); the image
is modelled as its pixel function, queried at `0 ≤ px < W`, `0 ≤ py < H`. -/

/-- An RGB color. -/
abbrev Color := ℕ × ℕ × ℕ

/-- A bbox `(x1, y1, x2, y2)` as used throughout mask_utils. -/
structure BB where
  x1 : ℤ
  y1 : ℤ
  x2 : ℤ
  y2 : ℤ
  deriving DecidableEq, Repr

/-- The bbox argument shapes accepted by mask_utils. -/
inductive BBoxInput where
  | tup (x1 y1 x2 y2 : ℤ)
  | dictXYXY (x1 y1 x2 y2 : ℤ)
  | dictXYWH (x y width height : ℤ)
  | unrecognized
  deriving DecidableEq

/-- Bbox parsing in `create_mask_from_bboxes` (mask_utils.py lines 44-67):
tuple and `x1/y1/x2/y2` dicts are taken as-is, `x/y/width/height` dicts are
converted, unrecognized shapes are skipped. -/
def parseBBoxInput : BBoxInput → Option BB
  | .tup a b c d => some ⟨a, b, c, d⟩
  | .dictXYXY a b c d => some ⟨a, b, c, d⟩
  | .dictXYWH x y w h => some ⟨x, y, x + w, y + h⟩
  | .unrecognized => none

/-- The clamp `max(0, min(v, bound))` applied to all four coordinates
(mask_utils.py lines 91-95). -/
def clampBB (W H : ℕ) (b : BB) : BB :=
  ⟨max 0 (min b.x1 (W : ℤ)), max 0 (min b.y1 (H : ℤ)),
   max 0 (min b.x2 (W : ℤ)), max 0 (min b.y2 (H : ℤ))⟩

/-- Per-bbox processing of `create_mask_from_bboxes` (parse, expand or
shrink, clamp, validity checks); `none` means the bbox is skipped. -/
def processBBox (W H : ℕ) (expand_pixels : ℤ) (inp : BBoxInput) : Option BB :=
  match parseBBoxInput inp with
  | none => none
  | some b0 =>
    let step1 : Option BB :=
      if expand_pixels > 0 then
        some ⟨max 0 (b0.x1 - expand_pixels), max 0 (b0.y1 - expand_pixels),
              min (W : ℤ) (b0.x2 + expand_pixels), min (H : ℤ) (b0.y2 + expand_pixels)⟩
      else if expand_pixels < 0 then
        let s := -expand_pixels
        let b1 : BB := ⟨b0.x1 + s, b0.y1 + s, b0.x2 - s, b0.y2 - s⟩
        if b1.x2 ≤ b1.x1 ∨ b1.y2 ≤ b1.y1 then none else some b1
      else some b0
    match step1 with
    | none => none
    | some b1 =>
      let b2 := clampBB W H b1
      if b2.x2 ≤ b2.x1 ∨ b2.y2 ≤ b2.y1 then none else some b2

/-- PIL inclusive rectangle membership for a pixel. -/
def inRectPixel (b : BB) (px py : ℕ) : Bool :=
  decide (b.x1 ≤ (px : ℤ) ∧ (px : ℤ) ≤ b.x2 ∧ b.y1 ≤ (py : ℤ) ∧ (py : ℤ) ≤ b.y2)

/-- The mask image: its size and its pixel function. -/
structure Mask where
  width : ℕ
  height : ℕ
  pixel : ℕ → ℕ → Color

/-- `create_mask_from_bboxes(image_size, bboxes, mask_color,
background_color, expand_pixels)` (mask_utils.py lines 12-125). All
rectangles are filled with the same `mask_color`, so a pixel's final color
is `mask_color` iff some accepted rectangle covers it. -/
def create_mask_from_bboxes (image_size : ℕ × ℕ) (bboxes : List BBoxInput)
    (mask_color background_color : Color) (expand_pixels : ℤ) : Mask :=
  let accepted := bboxes.filterMap (processBBox image_size.1 image_size.2 expand_pixels)
  { width := image_size.1
    height := image_size.2
    pixel := fun px py =>
      if accepted.any (fun b => inRectPixel b px py) then mask_color
      else background_color }

/-- C4: for every image size `(W,H)` and bbox `(x1,y1,x2,y2)` with
`0 ≤ x1 < x2 ≤ W` and `0 ≤ y1 < y2 ≤ H`, `create_mask_from_bboxes` with
`expand_pixels = 0` returns an image of size `(W,H)` whose pixels strictly
inside the bbox have the mask color and whose pixels strictly outside the
bbox have the background color. -/
theorem create_mask_single_bbox_correct (W H : ℕ) (x1 y1 x2 y2 : ℤ)
    (mc bg : Color)
    (hx1 : 0 ≤ x1) (hx12 : x1 < x2) (hx2 : x2 ≤ (W : ℤ))
    (hy1 : 0 ≤ y1) (hy12 : y1 < y2) (hy2 : y2 ≤ (H : ℤ)) :
    (create_mask_from_bboxes (W, H) [.tup x1 y1 x2 y2] mc bg 0).width = W ∧
    (create_mask_from_bboxes (W, H) [.tup x1 y1 x2 y2] mc bg 0).height = H ∧
    (∀ px py : ℕ, px < W → py < H →
      x1 < (px : ℤ) → (px : ℤ) < x2 → y1 < (py : ℤ) → (py : ℤ) < y2 →
      (create_mask_from_bboxes (W, H) [.tup x1 y1 x2 y2] mc bg 0).pixel px py = mc) ∧
    (∀ px py : ℕ, px < W → py < H →
      ((px : ℤ) < x1 ∨ x2 < (px : ℤ) ∨ (py : ℤ) < y1 ∨ y2 < (py : ℤ)) →
      (create_mask_from_bboxes (W, H) [.tup x1 y1 x2 y2] mc bg 0).pixel px py = bg) := by
  have hproc : processBBox W H 0 (BBoxInput.tup x1 y1 x2 y2) = some ⟨x1, y1, x2, y2⟩ := by
    simp only [processBBox, parseBBoxInput, clampBB]
    rw [if_neg (by omega), if_neg (by omega)]
    simp only []
    rw [max_eq_right (by omega), max_eq_right (by omega), max_eq_right (by omega),
      max_eq_right (by omega), min_eq_left (by omega), min_eq_left (by omega),
      min_eq_left (by omega), min_eq_left (by omega)]
    rw [if_neg (by omega)]
  have hpix : ∀ px py : ℕ,
      (create_mask_from_bboxes (W, H) [.tup x1 y1 x2 y2] mc bg 0).pixel px py
        = if inRectPixel ⟨x1, y1, x2, y2⟩ px py then mc else bg := by
    intro px py
    simp [create_mask_from_bboxes, hproc]
  refine ⟨rfl, rfl, ?_, ?_⟩
  · intro px py _ _ h1 h2 h3 h4
    rw [hpix, if_pos]
    simp only [inRectPixel, decide_eq_true_eq]
    omega
  · intro px py _ _ hout
    rw [hpix, if_neg]
    simp only [inRectPixel, decide_eq_true_eq]
    omega

/-- Witness for C4 at the spec's concrete case: size `(400,300)`, bbox
`(50,50,150,150)`; pixel `(100,100)` is white, pixel `(10,10)` is black. -/
theorem create_mask_single_bbox_correct_witness :
    ((0 : ℤ) ≤ 50 ∧ (50 : ℤ) < 150 ∧ (150 : ℤ) ≤ 400 ∧ (150 : ℤ) ≤ 300) ∧
    (create_mask_from_bboxes (400, 300) [.tup 50 50 150 150]
      (255, 255, 255) (0, 0, 0) 0).pixel 100 100 = (255, 255, 255) ∧
    (create_mask_from_bboxes (400, 300) [.tup 50 50 150 150]
      (255, 255, 255) (0, 0, 0) 0).pixel 10 10 = (0, 0, 0) :=
  ⟨by norm_num,
   (create_mask_single_bbox_correct 400 300 50 50 150 150 (255, 255, 255) (0, 0, 0)
      (by norm_num) (by norm_num) (by norm_num) (by norm_num) (by norm_num)
      (by norm_num)).2.2.1 100 100 (by norm_num) (by norm_num) (by norm_num)
      (by norm_num) (by norm_num) (by norm_num),
   (create_mask_single_bbox_correct 400 300 50 50 150 150 (255, 255, 255) (0, 0, 0)
      (by norm_num) (by norm_num) (by norm_num) (by norm_num) (by norm_num)
      (by norm_num)).2.2.2 10 10 (by norm_num) (by norm_num)
      (Or.inl (by norm_num))⟩

/-! ### `merge_overlapping_bboxes` (mask_utils.py lines 234-302)

The Python loop repeatedly runs a quadratic merging pass (with a `used`
index set, the running box being extended as it absorbs later boxes) until
a pass performs no merge. Every merging pass strictly shortens the list,
so `length + 1` passes always suffice; the fuel below is therefore exact. -/

/-- The overlap-or-adjacent test of mask_utils.py lines 285-286, against
the running box `a`. -/
def bboxesOverlap (t : ℤ) (a b : BB) : Bool :=
  decide (a.x1 - t ≤ b.x2 ∧ b.x1 ≤ a.x2 + t ∧ a.y1 - t ≤ b.y2 ∧ b.y1 ≤ a.y2 + t)

/-- Merging two boxes into their bounding union (lines 288-291). -/
def mergeBB (a b : BB) : BB :=
  ⟨min a.x1 b.x1, min a.y1 b.y1, max a.x2 b.x2, max a.y2 b.y2⟩

/-- The inner `for j` loop: scan the indexed tail, absorbing every unused
overlapping box into the running box. Returns the running box, the updated
used set and whether any merge happened. -/
def innerScan (t : ℤ) : List (ℕ × BB) → BB → List ℕ → Bool → BB × List ℕ × Bool
  | [], cur, used, m => (cur, used, m)
  | (j, b) :: rest, cur, used, m =>
      if used.contains j then innerScan t rest cur used m
      else if bboxesOverlap t cur b then innerScan t rest (mergeBB cur b) (j :: used) true
      else innerScan t rest cur used m

/-- The outer `for i` loop of one pass. -/
def outerScan (t : ℤ) : List (ℕ × BB) → List ℕ → List BB → Bool → List BB × Bool
  | [], _, acc, m => (acc.reverse, m)
  | (i, b) :: rest, used, acc, m =>
      if used.contains i then outerScan t rest used acc m
      else
        match innerScan t rest b used false with
        | (cur, used2, m2) => outerScan t rest used2 (cur :: acc) (m || m2)

/-- One full pass of the `while merged` loop. -/
def mergePass (t : ℤ) (bs : List BB) : List BB × Bool :=
  outerScan t bs.enum [] [] false

/-- The `while merged` loop, with enough fuel to reach its fixed point. -/
def mergeLoop (t : ℤ) : ℕ → List BB → List BB
  | 0, bs => bs
  | fuel + 1, bs =>
      match mergePass t bs with
      | (bs2, m) => if m then mergeLoop t fuel bs2 else bs2

/-- Normalization of the input list (lines 252-262): dict shapes are
converted to tuples, dicts of neither recognized shape contribute nothing. -/
def normalizeBBoxes : List BBoxInput → List BB :=
  List.filterMap fun inp =>
    match inp with
    | .tup a b c d => some ⟨a, b, c, d⟩
    | .dictXYXY a b c d => some ⟨a, b, c, d⟩
    | .dictXYWH x y w h => some ⟨x, y, x + w, y + h⟩
    | .unrecognized => none

/-- `merge_overlapping_bboxes(bboxes, merge_threshold)`. -/
def merge_overlapping_bboxes (bboxes : List BBoxInput) (merge_threshold : ℤ) : List BB :=
  if bboxes.isEmpty then []
  else
    let normalized := normalizeBBoxes bboxes
    mergeLoop merge_threshold (normalized.length + 1) normalized

/-- C5: with `merge_threshold = 10`, the boxes `(100,100,200,200)` and
`(190,190,300,300)` merge into exactly `(100,100,300,300)`, while
`(100,100,200,200)` and `(300,300,400,400)` stay unmerged in order. -/
theorem merge_overlapping_bboxes_examples :
    merge_overlapping_bboxes
        [.tup 100 100 200 200, .tup 190 190 300 300] 10
      = [⟨100, 100, 300, 300⟩] ∧
    merge_overlapping_bboxes
        [.tup 100 100 200 200, .tup 300 300 400 400] 10
      = [⟨100, 100, 200, 200⟩, ⟨300, 300, 400, 400⟩] := by
  constructor
  · decide
  · decide

/-! ## AI service: outlines (`src/backend/services/ai_service.py`)

Python dicts are modelled as insertion-ordered association lists with
unique keys; `d[k] = v` replaces the value in place when the key exists and
appends otherwise, which is exactly `dictSet` below. Outline values are
either strings, numbers, or a list of page dicts. -/

/-- A JSON-ish value stored in an outline item. -/
inductive PVal where
  | vstr : String → PVal
  | vint : ℤ → PVal
  | vpages : List (List (String × PVal)) → PVal

/-- A Python dict as an insertion-ordered association list. -/
abbrev Dict := List (String × PVal)

/-- Python `k in d`. -/
def dictHasKey {α : Type} (d : List (String × α)) (k : String) : Bool :=
  d.any (fun p => p.1 == k)

/-- Python `d[k]` (as an `Option`). -/
def dictGet {α : Type} (d : List (String × α)) (k : String) : Option α :=
  (d.find? (fun p => p.1 == k)).map (fun p => p.2)

/-- Python `d[k] = v`: replace in place if the key exists, append
otherwise. -/
def dictSet {α : Type} (d : List (String × α)) (k : String) (v : α) :
    List (String × α) :=
  if dictHasKey d k then d.map (fun p => if p.1 == k then (k, v) else p)
  else d ++ [(k, v)]

/-- The group test `"part" in item and "pages" in item`
(ai_service.py line 227). -/
def isGroupItem (d : Dict) : Bool :=
  dictHasKey d ("part") && dictHasKey d ("pages")

/-- `item["pages"]` of a group item; for the well-formed outlines the
claim ranges over, the key holds a list of page dicts. -/
def getPages (d : Dict) : List Dict :=
  match dictGet d ("pages") with
  | some (PVal.vpages ps) => ps
  | _ => []

/-- `item["part"]` of a group item. -/
def getPartVal (d : Dict) : PVal :=
  (dictGet d ("part")).getD (PVal.vstr (""))

/-- `AIService.flatten_outline(outline)` (ai_service.py lines 220-236):
group items are expanded into their pages, each page copied and given the
group's `part` label; direct items pass through unchanged. -/
def flatten_outline (outline : List Dict) : List Dict :=
  outline.flatMap (fun item =>
    if isGroupItem item then
      (getPages item).map (fun page => dictSet page ("part") (getPartVal item))
    else [item])

/-- The claim's entry-count formula: each group contributes its page
count, each direct item contributes one. -/
def outlinePageCount (outline : List Dict) : ℕ :=
  (outline.map (fun item =>
    if isGroupItem item then (getPages item).length else 1)).sum

theorem find?_key_append_self {α : Type} (d : List (String × α)) (k : String)
    (v : α) (h : dictHasKey d k = false) :
    List.find? (fun p => p.1 == k) (d ++ [(k, v)]) = some (k, v) := by
  induction d with
  | nil => simp [List.find?]
  | cons a rest ih =>
    simp only [dictHasKey, List.any_cons, Bool.or_eq_false_iff] at h
    rw [List.cons_append, List.find?_cons_of_neg _ (by simp [h.1]), ih h.2]

theorem find?_key_map_set {α : Type} (d : List (String × α)) (k : String)
    (v : α) (h : dictHasKey d k = true) :
    List.find? (fun p => p.1 == k)
        (d.map (fun p => if p.1 == k then (k, v) else p)) = some (k, v) := by
  induction d with
  | nil => simp [dictHasKey] at h
  | cons a rest ih =>
    cases ha : (a.1 == k) with
    | true =>
      simp only [List.map_cons, ha, if_true]
      rw [List.find?_cons_of_pos _ (by simp)]
    | false =>
      simp only [List.map_cons, ha, Bool.false_eq_true, if_false]
      rw [List.find?_cons_of_neg _ (by simp [ha])]
      apply ih
      simp only [dictHasKey, List.any_cons, ha, Bool.false_or] at h
      exact h

theorem dictGet_dictSet {α : Type} (d : List (String × α)) (k : String) (v : α) :
    dictGet (dictSet d k v) k = some v := by
  unfold dictSet
  cases h : dictHasKey d k with
  | false =>
    rw [if_neg (by simp [h])]
    unfold dictGet
    rw [find?_key_append_self d k v h]
    rfl
  | true =>
    rw [if_pos rfl]
    unfold dictGet
    rw [find?_key_map_set d k v h]
    rfl

/-- C6: `flatten_outline` yields exactly (sum of group page counts) +
(count of direct pages) entries; it distributes over list concatenation
(so entries appear in the original item order); and every produced entry
is either a direct item passed through unchanged or a group page carrying
that group's `part` label. -/
theorem flatten_outline_correct (outline : List Dict) :
    (flatten_outline outline).length = outlinePageCount outline ∧
    (∀ pre post : List Dict,
      flatten_outline (pre ++ post) = flatten_outline pre ++ flatten_outline post) ∧
    (∀ q ∈ flatten_outline outline,
      (isGroupItem q = false ∧ q ∈ outline) ∨
      (∃ item ∈ outline, isGroupItem item = true ∧
        ∃ p ∈ getPages item, q = dictSet p ("part") (getPartVal item) ∧
          dictGet q ("part") = some (getPartVal item))) := by
  refine ⟨?_, ?_, ?_⟩
  · induction outline with
    | nil => rfl
    | cons item rest ih =>
      unfold flatten_outline outlinePageCount at ih ⊢
      rw [List.flatMap_cons, List.length_append, List.map_cons, List.sum_cons]
      cases hg : isGroupItem item with
      | true =>
        rw [if_pos rfl, if_pos rfl, List.length_map]
        omega
      | false =>
        rw [if_neg (by simp), if_neg (by simp), List.length_singleton]
        omega
  · intro pre post
    unfold flatten_outline
    exact List.flatMap_append pre post _
  · intro q hq
    induction outline with
    | nil => simp [flatten_outline] at hq
    | cons item rest ih =>
      unfold flatten_outline at hq
      rw [List.flatMap_cons] at hq
      rcases List.mem_append.mp hq with h | h
      · cases hg : isGroupItem item with
        | true =>
          rw [if_pos hg] at h
          obtain ⟨p, hp, hpq⟩ := List.mem_map.mp h
          refine Or.inr ⟨item, List.mem_cons_self item rest, hg, p, hp, hpq.symm, ?_⟩
          rw [← hpq]
          exact dictGet_dictSet p ("part") (getPartVal item)
        | false =>
          rw [if_neg (by simp [hg])] at h
          rcases List.mem_singleton.mp h with rfl
          exact Or.inl ⟨hg, List.mem_cons_self q rest⟩
      · rcases ih h with ⟨h1, h2⟩ | ⟨it, hit, hrest⟩
        · exact Or.inl ⟨h1, List.mem_cons_of_mem item h2⟩
        · exact Or.inr ⟨it, List.mem_cons_of_mem item hit, hrest⟩

/-- A concrete outline: one group (`part` "Intro", two pages) and one
direct page. -/
def demoOutline : List Dict :=
  [[(("part"), PVal.vstr ("Intro")),
    (("pages"), PVal.vpages
      [[(("title"), PVal.vstr ("P1"))], [(("title"), PVal.vstr ("P2"))]])],
   [(("title"), PVal.vstr ("Solo"))]]

/-- The first entry `flatten_outline` produces from `demoOutline`: page
`P1` with the group's part label appended. -/
def demoFirstPage : Dict :=
  [(("title"), PVal.vstr ("P1")), (("part"), PVal.vstr ("Intro"))]

/-- Witness for C6 at `demoOutline`: 2 group pages + 1 direct page = 3
entries, and the first produced entry carries the group's `part` label. -/
theorem flatten_outline_correct_witness :
    ((flatten_outline demoOutline).length = outlinePageCount demoOutline ∧
      outlinePageCount demoOutline = 3) ∧
    ((isGroupItem demoFirstPage = false ∧ demoFirstPage ∈ demoOutline) ∨
      (∃ item ∈ demoOutline, isGroupItem item = true ∧
        ∃ p ∈ getPages item,
          demoFirstPage = dictSet p ("part") (getPartVal item) ∧
          dictGet demoFirstPage ("part") = some (getPartVal item))) :=
  ⟨⟨(flatten_outline_correct demoOutline).1, rfl⟩,
   (flatten_outline_correct demoOutline).2.2 demoFirstPage
     (List.mem_cons_self _ _)⟩

/-! ## AI service: description splitting (`ai_service.py` lines 446-468)

`parse_description_to_page_descriptions` sends a prompt to the text
provider, strips code fences and runs `json.loads`; those steps are
abstracted here into the already-parsed JSON value `parsed`. The claim
concerns the shape check applied afterwards (lines 463-468): the code only
checks `isinstance(descriptions, list)` and coerces the elements with
`str(...)`; it never compares the list's length to the outline's page
count. -/

/-- A parsed JSON value returned by the provider. -/
inductive JVal where
  | jstr : String → JVal
  | jlist : List JVal → JVal
  | jother : JVal

/-- Python `str(...)` on a parsed JSON value; the exact rendering of
non-strings is immaterial to the claims. -/
def pyStr : JVal → String
  | .jstr s => s
  | _ => ("<non-string>")

/-- The shape check and coercion of
`AIService.parse_description_to_page_descriptions`; the source's `outline`
parameter is used only to build the prompt, never to validate the result's
length — which is exactly the claim's failure. -/
def parse_description_to_page_descriptions (_outline : List Dict)
    (parsed : JVal) : Except String (List String) :=
  match parsed with
  | .jlist l => Except.ok (l.map pyStr)
  | _ => Except.error ("Expected a list of page descriptions, but got a non-list value")

/-- A two-page outline (two direct pages). -/
def demoOutline2 : List Dict :=
  [[(("title"), PVal.vstr ("Page one"))], [(("title"), PVal.vstr ("Page two"))]]

/-- C2 counterexample: with a two-page outline, a parsed response that is a
list of length 1 is accepted and returned (coerced), not rejected — the
function performs no length check against the outline's page count. -/
theorem parse_descriptions_length_counterexample :
    parse_description_to_page_descriptions demoOutline2
        (JVal.jlist [JVal.jstr ("only one")]) = Except.ok [("only one")] ∧
    (flatten_outline demoOutline2).length = 2 ∧
    ([("only one")] : List String).length ≠ (flatten_outline demoOutline2).length :=
  ⟨rfl, rfl, by decide⟩

/-- C2 (amended): whenever the parsed response is a list — of any length,
with no validation against the outline's page count — the function returns
that list with its elements coerced to strings (so the result length
equals the parsed list's length); it raises the fatal error exactly when
the parsed response is not a list. -/
theorem parse_descriptions_list_behavior (outline : List Dict) (parsed : JVal) :
    (∀ l : List JVal, parsed = JVal.jlist l →
      parse_description_to_page_descriptions outline parsed
          = Except.ok (l.map pyStr) ∧
      (l.map pyStr).length = l.length) ∧
    ((∀ l : List JVal, parsed ≠ JVal.jlist l) →
      ∃ e, parse_description_to_page_descriptions outline parsed
          = Except.error e) := by
  constructor
  · rintro l rfl
    exact ⟨rfl, List.length_map l pyStr⟩
  · intro h
    cases parsed with
    | jstr s => exact ⟨_, rfl⟩
    | jlist l => exact absurd rfl (h l)
    | jother => exact ⟨_, rfl⟩

/-- Witness for the amended C2 theorem: a three-element list response is
returned as-is regardless of the outline. -/
theorem parse_descriptions_list_behavior_witness :
    parse_description_to_page_descriptions demoOutline2
        (JVal.jlist [JVal.jstr ("a"), JVal.jstr ("b"), JVal.jstr ("c")])
      = Except.ok [("a"), ("b"), ("c")] :=
  ((parse_descriptions_list_behavior demoOutline2
      (JVal.jlist [JVal.jstr ("a"), JVal.jstr ("b"), JVal.jstr ("c")])).1
    [JVal.jstr ("a"), JVal.jstr ("b"), JVal.jstr ("c")] rfl).1

/-! ## Task manager: image version bookkeeping
(`src/backend/services/task_manager.py`)

The success paths of `generate_single_page_image_task` (lines 491-528) and
`edit_page_image_task` (lines 613-651) perform identical version
bookkeeping on a page: compute `next_version = len(existing_versions) + 1`,
set `is_current = False` on every existing version, append the new version
with `is_current = True`, and point the page's `generated_image_path` at
the new image. The state below carries exactly the fields the claim is
about. -/

/-- A `PageImageVersion` row. -/
structure VersionRec where
  image_path : String
  version_number : ℕ
  is_current : Bool
  deriving DecidableEq, Repr

/-- The page-local state touched by the bookkeeping. -/
structure PageState where
  versions : List VersionRec
  generated_image_path : Option String
  status : String
  deriving DecidableEq, Repr

/-- The shared success-path bookkeeping of
`generate_single_page_image_task` / `edit_page_image_task`, with `newPath`
the path the generated/edited image was saved under. -/
def applyImageTaskSuccess (st : PageState) (newPath : String) : PageState :=
  let existing := st.versions
  let nextVersion := existing.length + 1
  { versions := existing.map (fun v => { v with is_current := false })
      ++ [{ image_path := newPath, version_number := nextVersion, is_current := true }]
    generated_image_path := some newPath
    status := ("COMPLETED") }

/-- A page fresh out of outline materialization: no versions yet. -/
def initialPageState : PageState :=
  { versions := [], generated_image_path := none, status := ("PENDING") }

/-- M successive successful (non-concurrent) edits/regenerations, one per
saved image path. -/
def runImageTasks (paths : List String) : PageState :=
  paths.foldl applyImageTaskSuccess initialPageState

theorem filter_current_of_cleared (l : List VersionRec) :
    (l.map (fun v => { v with is_current := false })).filter
        (fun v => v.is_current) = [] := by
  induction l with
  | nil => rfl
  | cons a rest ih =>
    rw [List.map_cons, List.filter_cons_of_neg (by simp)]
    exact ih

theorem runImageTasks_versions_length_aux (paths : List String) (st : PageState) :
    (paths.foldl applyImageTaskSuccess st).versions.length
      = st.versions.length + paths.length := by
  induction paths generalizing st with
  | nil => simp
  | cons p rest ih =>
    rw [List.foldl_cons, ih]
    simp [applyImageTaskSuccess]
    omega

theorem applyImageTaskSuccess_versions (st : PageState) (p : String) :
    (applyImageTaskSuccess st p).versions
      = st.versions.map (fun v => { v with is_current := false })
        ++ [{ image_path := p, version_number := st.versions.length + 1,
              is_current := true }] := rfl

theorem applyImageTaskSuccess_path (st : PageState) (p : String) :
    (applyImageTaskSuccess st p).generated_image_path = some p := rfl

theorem runImageTasks_versions_length (paths : List String) :
    (runImageTasks paths).versions.length = paths.length := by
  unfold runImageTasks
  rw [runImageTasks_versions_length_aux]
  simp [initialPageState]

/-- C3: after M successive successful edits/regenerations of the same page,
exactly one `PageImageVersion` has `is_current = true`, its
`version_number` equals M, and the page's `generated_image_path` equals
that version's `image_path`. -/
theorem image_version_bookkeeping (paths : List String) (h : paths ≠ []) :
    (runImageTasks paths).versions.filter (fun v => v.is_current)
        = [{ image_path := paths.getLast h, version_number := paths.length,
             is_current := true }] ∧
    (runImageTasks paths).generated_image_path = some (paths.getLast h) := by
  induction paths using List.reverseRecOn with
  | nil => exact absurd rfl h
  | append_singleton ps p ih =>
    clear ih
    have hrun : runImageTasks (ps ++ [p]) = applyImageTaskSuccess (runImageTasks ps) p := by
      unfold runImageTasks
      rw [List.foldl_append]
      rfl
    have hlast : (ps ++ [p]).getLast h = p := by
      simp [List.getLast_append]
    have hlen : (ps ++ [p]).length = ps.length + 1 := by simp
    rw [hrun, hlast, hlen]
    constructor
    · rw [applyImageTaskSuccess_versions, List.filter_append,
        filter_current_of_cleared, List.nil_append,
        List.filter_cons_of_pos (by simp), List.filter_nil,
        runImageTasks_versions_length]
    · exact applyImageTaskSuccess_path _ _

/-- Witness for C3 at three successive successful tasks. -/
theorem image_version_bookkeeping_witness :
    ((["a.png", "b.png", "c.png"] : List String) ≠ []) ∧
    (runImageTasks ["a.png", "b.png", "c.png"]).versions.filter
        (fun v => v.is_current)
      = [{ image_path := ("c.png"), version_number := 3, is_current := true }] ∧
    (runImageTasks ["a.png", "b.png", "c.png"]).generated_image_path
      = some ("c.png") :=
  ⟨by simp,
   (image_version_bookkeeping ["a.png", "b.png", "c.png"] (by simp)).1,
   (image_version_bookkeeping ["a.png", "b.png", "c.png"] (by simp)).2⟩

/-! ## AI provider factory (`src/backend/services/ai_providers/__init__.py`)

`_get_provider_config` (lines 44-74) resolves `AI_PROVIDER_FORMAT`
(default `gemini`, lowercased) and requires the matching API key: the
OpenAI-format branch reads only `OPENAI_API_KEY` and raises a `ValueError`
when it is unset (Python falsiness: absent or empty string); it never
consults `GOOGLE_API_KEY`. The factories `get_text_provider` /
`get_image_provider` call it before constructing any provider. The process
environment is modelled as a function from variable names to optional
values. -/

/-- A process environment. -/
abbrev Env := String → Option String

/-- Python truthiness of `os.getenv(...)`: `None` and `""` are falsy. -/
def envTruthy : Option String → Bool
  | none => false
  | some s => !(s == "")

/-- Python `str.lower()`, mapped over the characters (kept structurally
recursive so it evaluates in the kernel). -/
def pyLower (s : String) : String := ⟨s.data.map Char.toLower⟩

/-- `get_provider_format()` (lines 34-41). -/
def get_provider_format (env : Env) : String :=
  pyLower ((env ("AI_PROVIDER_FORMAT")).getD ("gemini"))

/-- The configuration error raised when the OpenAI-format key is missing. -/
def openaiKeyError : String :=
  "OPENAI_API_KEY environment variable is required when AI_PROVIDER_FORMAT=openai. Note: GOOGLE_API_KEY cannot be used for OpenAI format."

/-- The configuration error raised when the Gemini-format key is missing. -/
def googleKeyError : String :=
  "GOOGLE_API_KEY environment variable is required"

/-- `_get_provider_config()` (lines 44-74): returns
`(provider_format, api_key, api_base)` or the configuration error. -/
def getProviderConfig (env : Env) :
    Except String (String × Option String × Option String) :=
  let fmt := get_provider_format env
  if fmt == "openai" then
    let apiKey := env ("OPENAI_API_KEY")
    if !(envTruthy apiKey) then Except.error openaiKeyError
    else Except.ok (("openai"), apiKey, env ("OPENAI_API_BASE"))
  else
    let apiKey := env ("GOOGLE_API_KEY")
    if !(envTruthy apiKey) then Except.error googleKeyError
    else Except.ok (("gemini"), apiKey, env ("GOOGLE_API_BASE"))

/-- A constructed text provider. -/
inductive TextProvider where
  | openaiText (api_key api_base : Option String) (model : String)
  | genaiText (api_key api_base : Option String) (model : String)
  deriving DecidableEq

/-- A constructed image provider. -/
inductive ImageProvider where
  | openaiImage (api_key api_base : Option String) (model : String)
  | genaiImage (api_key api_base : Option String) (model : String)
  deriving DecidableEq

/-- `get_text_provider(model)` (lines 77-94). -/
def get_text_provider (env : Env) (model : String) : Except String TextProvider :=
  match getProviderConfig env with
  | Except.error e => Except.error e
  | Except.ok (fmt, key, base) =>
    if fmt == "openai" then Except.ok (TextProvider.openaiText key base model)
    else Except.ok (TextProvider.genaiText key base model)

/-- `get_image_provider(model)` (lines 97-119). -/
def get_image_provider (env : Env) (model : String) : Except String ImageProvider :=
  match getProviderConfig env with
  | Except.error e => Except.error e
  | Except.ok (fmt, key, base) =>
    if fmt == "openai" then Except.ok (ImageProvider.openaiImage key base model)
    else Except.ok (ImageProvider.genaiImage key base model)

/-- C8: when `AI_PROVIDER_FORMAT` is `openai` and `OPENAI_API_KEY` is
absent, provider construction via `get_text_provider` or
`get_image_provider` fails with the configuration error — for every
environment, in particular regardless of whether `GOOGLE_API_KEY` is set:
the Gemini key is never substituted. -/
theorem openai_format_requires_openai_key (env : Env) (model1 model2 : String)
    (hfmt : env ("AI_PROVIDER_FORMAT") = some ("openai"))
    (hkey : env ("OPENAI_API_KEY") = none) :
    getProviderConfig env = Except.error openaiKeyError ∧
    get_text_provider env model1 = Except.error openaiKeyError ∧
    get_image_provider env model2 = Except.error openaiKeyError := by
  have hf : get_provider_format env = "openai" := by
    rw [get_provider_format, hfmt]
    rfl
  have hc : getProviderConfig env = Except.error openaiKeyError := by
    rw [getProviderConfig, hf, hkey]
    rfl
  exact ⟨hc, by rw [get_text_provider, hc], by rw [get_image_provider, hc]⟩

/-- An environment selecting the OpenAI format with only a Gemini key. -/
def demoEnvOpenai : Env := fun k =>
  if k == "AI_PROVIDER_FORMAT" then some ("openai")
  else if k == "GOOGLE_API_KEY" then some ("gemini-key-123")
  else none

/-- Witness for C8: with `AI_PROVIDER_FORMAT=openai` and only
`GOOGLE_API_KEY` set, both factories fail with the configuration error. -/
theorem openai_format_requires_openai_key_witness :
    (demoEnvOpenai ("AI_PROVIDER_FORMAT") = some ("openai") ∧
     demoEnvOpenai ("OPENAI_API_KEY") = none ∧
     demoEnvOpenai ("GOOGLE_API_KEY") = some ("gemini-key-123")) ∧
    (getProviderConfig demoEnvOpenai = Except.error openaiKeyError ∧
     get_text_provider demoEnvOpenai ("gemini-2.5-flash")
         = Except.error openaiKeyError ∧
     get_image_provider demoEnvOpenai ("gemini-3-pro-image-preview")
         = Except.error openaiKeyError) :=
  ⟨⟨rfl, rfl, rfl⟩,
   openai_format_requires_openai_key demoEnvOpenai ("gemini-2.5-flash")
     ("gemini-3-pro-image-preview") rfl rfl⟩

/-! ## Export controller: recursive editable-PPTX endpoint
(`src/backend/controllers/export_controller.py` lines 320-343)

The endpoint checks, in order: project existence (404), presence of pages
(400), presence of at least one generated image (400), then validates
`max_depth` / `max_workers` from the JSON body — `isinstance(x, int)` and
the range — returning 400 *before* the Task row is created; only after all
validation does it create the Task (`taskCreated` below is the only
task-creating outcome of the model). Note Python's `bool` is a subclass of
`int`, so `isinstance(True, int)` holds; `isPyInt` mirrors that. The
filename defaulting (lines 322-325) is orthogonal to the claim and carried
nowhere in the validated outcome. -/

/-- A JSON body value as Python sees it after `request.get_json()`. -/
inductive RVal where
  | rint (n : ℤ)
  | rbool (b : Bool)
  | rfloat (q : ℚ)
  | rstr (s : String)
  | rnull
  deriving DecidableEq

/-- Python `isinstance(v, int)` on a JSON value (`bool` is an `int`
subclass in Python). -/
def isPyInt : RVal → Bool
  | .rint _ => true
  | .rbool _ => true
  | _ => false

/-- The integer value of a JSON value that passed `isinstance(v, int)`;
the remaining cases are unreachable behind the guard. -/
def toPyInt : RVal → ℤ
  | .rint n => n
  | .rbool b => if b then 1 else 0
  | _ => 0

/-- The JSON request body fields read by the endpoint. -/
structure RecursiveExportRequest where
  max_depth : Option RVal
  max_workers : Option RVal
  deriving DecidableEq

/-- The endpoint's observable outcome. -/
inductive ExportResp where
  | notFound
  | badRequest (msg : String)
  | taskCreated (max_depth max_workers : ℤ)
  deriving DecidableEq

/-- `export_editable_pptx_recursive` (export_controller.py lines 320-343),
up to Task submission: `pagesHaveImage` records, per page, whether
`generated_image_path` is set. -/
def export_editable_pptx_recursive (projectExists : Bool)
    (pagesHaveImage : List Bool) (body : RecursiveExportRequest) : ExportResp :=
  if projectExists = false then ExportResp.notFound
  else if pagesHaveImage.isEmpty = true then
    ExportResp.badRequest ("No pages found for project")
  else if pagesHaveImage.any id = false then
    ExportResp.badRequest ("No generated images found for project")
  else
    let md := body.max_depth.getD (RVal.rint 2)
    let mw := body.max_workers.getD (RVal.rint 4)
    if isPyInt md = false ∨ toPyInt md < 0 ∨ 5 < toPyInt md then
      ExportResp.badRequest ("max_depth must be an integer between 0 and 5")
    else if isPyInt mw = false ∨ toPyInt mw < 1 ∨ 16 < toPyInt mw then
      ExportResp.badRequest ("max_workers must be an integer between 1 and 16")
    else ExportResp.taskCreated (toPyInt md) (toPyInt mw)

/-- C9: for an existing project with a generated image, the endpoint
returns 400 (and creates no task) whenever the effective `max_depth` is
non-integer or outside `0..5`, or — with `max_depth` valid — whenever the
effective `max_workers` is non-integer or outside `1..16`; and it creates
the task for every integer `max_depth ∈ 0..5` and `max_workers ∈ 1..16`.
In this model `taskCreated` is the only outcome that creates a Task row,
so a `badRequest` outcome is returned before any Task is created. -/
theorem export_recursive_param_validation (pages : List Bool)
    (body : RecursiveExportRequest) (hpages : pages.any id = true) :
    ((isPyInt (body.max_depth.getD (RVal.rint 2)) = false ∨
      toPyInt (body.max_depth.getD (RVal.rint 2)) < 0 ∨
      5 < toPyInt (body.max_depth.getD (RVal.rint 2))) →
      export_editable_pptx_recursive true pages body
        = ExportResp.badRequest ("max_depth must be an integer between 0 and 5")) ∧
    ((isPyInt (body.max_depth.getD (RVal.rint 2)) = true ∧
      0 ≤ toPyInt (body.max_depth.getD (RVal.rint 2)) ∧
      toPyInt (body.max_depth.getD (RVal.rint 2)) ≤ 5) →
      (isPyInt (body.max_workers.getD (RVal.rint 4)) = false ∨
       toPyInt (body.max_workers.getD (RVal.rint 4)) < 1 ∨
       16 < toPyInt (body.max_workers.getD (RVal.rint 4))) →
      export_editable_pptx_recursive true pages body
        = ExportResp.badRequest ("max_workers must be an integer between 1 and 16")) ∧
    ((isPyInt (body.max_depth.getD (RVal.rint 2)) = true ∧
      0 ≤ toPyInt (body.max_depth.getD (RVal.rint 2)) ∧
      toPyInt (body.max_depth.getD (RVal.rint 2)) ≤ 5) →
      (isPyInt (body.max_workers.getD (RVal.rint 4)) = true ∧
       1 ≤ toPyInt (body.max_workers.getD (RVal.rint 4)) ∧
       toPyInt (body.max_workers.getD (RVal.rint 4)) ≤ 16) →
      export_editable_pptx_recursive true pages body
        = ExportResp.taskCreated (toPyInt (body.max_depth.getD (RVal.rint 2)))
            (toPyInt (body.max_workers.getD (RVal.rint 4)))) := by
  have hne : pages.isEmpty = false := by
    cases pages with
    | nil => simp at hpages
    | cons a l => rfl
  refine ⟨?_, ?_, ?_⟩
  · intro hbad
    unfold export_editable_pptx_recursive
    rw [if_neg (by simp), if_neg (by simp [hne]), if_neg (by simp [hpages]),
      if_pos hbad]
  · intro hok hbad
    obtain ⟨h1, h2, h3⟩ := hok
    unfold export_editable_pptx_recursive
    rw [if_neg (by simp), if_neg (by simp [hne]), if_neg (by simp [hpages]),
      if_neg (by push_neg; exact ⟨by simp [h1], h2, h3⟩), if_pos hbad]
  · intro hok1 hok2
    obtain ⟨h1, h2, h3⟩ := hok1
    obtain ⟨h4, h5, h6⟩ := hok2
    unfold export_editable_pptx_recursive
    rw [if_neg (by simp), if_neg (by simp [hne]), if_neg (by simp [hpages]),
      if_neg (by push_neg; exact ⟨by simp [h1], h2, h3⟩),
      if_neg (by push_neg; exact ⟨by simp [h4], h5, h6⟩)]

/-- Witness for C9 at the spec's concrete cases: `max_depth=6` and
`max_workers=0` are rejected with 400, and the boundary values
`max_depth=5`, `max_workers=16` are accepted. -/
theorem export_recursive_param_validation_witness :
    (([true] : List Bool).any id = true) ∧
    export_editable_pptx_recursive true [true]
        { max_depth := some (RVal.rint 6), max_workers := some (RVal.rint 4) }
      = ExportResp.badRequest ("max_depth must be an integer between 0 and 5") ∧
    export_editable_pptx_recursive true [true]
        { max_depth := none, max_workers := some (RVal.rint 0) }
      = ExportResp.badRequest ("max_workers must be an integer between 1 and 16") ∧
    export_editable_pptx_recursive true [true]
        { max_depth := some (RVal.rint 5), max_workers := some (RVal.rint 16) }
      = ExportResp.taskCreated 5 16 :=
  ⟨rfl,
   (export_recursive_param_validation [true]
      { max_depth := some (RVal.rint 6), max_workers := some (RVal.rint 4) }
      rfl).1 (by right; right; decide),
   (export_recursive_param_validation [true]
      { max_depth := none, max_workers := some (RVal.rint 0) } rfl).2.1
     (by refine ⟨rfl, by decide, by decide⟩) (by right; left; decide),
   (export_recursive_param_validation [true]
      { max_depth := some (RVal.rint 5), max_workers := some (RVal.rint 16) }
      rfl).2.2 (by refine ⟨rfl, by decide, by decide⟩)
     (by refine ⟨rfl, by decide, by decide⟩)⟩

/-! ## AI service: `remove_markdown_images` (ai_service.py lines 111-138)

The function applies `re.sub(r'!\[(.*?)\]\([^\)]+\)', replace, text)` where
`replace` yields the stripped alt text (deleting the link when the stripped
alt is empty), then `re.sub(r'\n\s*\n\s*\n', '\n\n', ...)`.

The first pattern is embedded as a scanner with Python's exact regex
semantics: at `![`, the lazy group `(.*?)` grows one character at a time
(`.` matches anything except a newline), at each stop trying `](` followed
by `[^\)]+\)` — one or more non-`)` characters up to a literal `)`.
`re.sub` replaces leftmost non-overlapping matches and scans on after each
match.

For the second pattern (`'\n' \s* '\n' \s* '\n'`, greedy with
backtracking), a match starts at a newline whose maximal whitespace run
contains at least 3 newlines, and extends exactly to the last newline of
that run; it is replaced by two newlines.

Both scanners consume at least one character per step, so `length` fuel is
exact. -/

/-- Python `\s` / `str.strip()` whitespace (ASCII range, as produced by
these texts). -/
def pyIsSpace (c : Char) : Bool :=
  c == ' ' || c == '\t' || c == '\n' || c == '\r' || c == '\x0b' || c == '\x0c'

/-- Python `str.strip()`. -/
def pyStrip (cs : List Char) : List Char :=
  ((cs.dropWhile pyIsSpace).reverse.dropWhile pyIsSpace).reverse

/-- Match `[^\)]+\)` at the head of `cs`; returns the remainder after the
closing parenthesis. -/
def matchUrl (cs : List Char) : Option (List Char) :=
  let url := cs.takeWhile (fun c => !(c == ')'))
  if url.isEmpty then none
  else
    match cs.drop url.length with
    | ')' :: rest => some rest
    | _ => none

/-- Match `(.*?)\]\([^\)]+\)` at the head of `cs` (the part after `![`),
with the lazy-group semantics described above; returns the alt text and
the remainder after the whole match. -/
def matchTail : List Char → Option (List Char × List Char)
  | [] => none
  | c :: rest =>
    let close : Option (List Char × List Char) :=
      if c == ']' then
        match rest with
        | '(' :: rest2 =>
          match matchUrl rest2 with
          | some rest3 => some ([], rest3)
          | none => none
        | _ => none
      else none
    match close with
    | some r => some r
    | none =>
      if c == '\n' then none
      else (matchTail rest).map (fun p => (c :: p.1, p.2))

/-- The first `re.sub`: replace each leftmost image match by its stripped
alt text and scan on. -/
def subImagesGo : ℕ → List Char → List Char
  | 0, cs => cs
  | _ + 1, [] => []
  | fuel + 1, '!' :: '[' :: rest =>
    (match matchTail rest with
     | some (alt, rest2) => pyStrip alt ++ subImagesGo fuel rest2
     | none => '!' :: subImagesGo fuel ('[' :: rest))
  | fuel + 1, c :: rest => c :: subImagesGo fuel rest

/-- The image-link substitution over a character list. -/
def subImages (cs : List Char) : List Char := subImagesGo cs.length cs

/-- The second `re.sub`: collapse every whitespace run containing three or
more newlines (from its first to its last newline) into two newlines. -/
def collapseGo : ℕ → List Char → List Char
  | 0, cs => cs
  | _ + 1, [] => []
  | fuel + 1, c :: rest =>
    if c == '\n' then
      let run := c :: rest.takeWhile pyIsSpace
      if 3 ≤ run.count '\n' then
        let afterLast := (run.reverse.takeWhile (fun d => !(d == '\n'))).length
        '\n' :: '\n' :: collapseGo fuel (rest.drop (run.length - afterLast - 1))
      else c :: collapseGo fuel rest
    else c :: collapseGo fuel rest

/-- The newline-collapsing substitution over a character list. -/
def collapseNewlines (cs : List Char) : List Char := collapseGo cs.length cs

/-- `AIService.remove_markdown_images(text)` (ai_service.py lines
111-138): the empty-text early return, then the two substitutions. -/
def remove_markdown_images (s : String) : String :=
  if s.data.isEmpty then s
  else ⟨collapseNewlines (subImages s.data)⟩

/-- Whether the image regex matches anywhere in the text (used to state
"contains an `![...](...)` substring"). -/
def containsImageLink : List Char → Bool
  | [] => false
  | '!' :: '[' :: rest =>
      (matchTail rest).isSome || containsImageLink ('[' :: rest)
  | _ :: rest => containsImageLink rest

/-- C7 counterexample: on `"!![](u)[y](v)"` the empty-alt image link is
removed, but the removal splices the preceding `!` together with the
following `[y](v)` into a fresh image link: the result `"![y](v)"` still
contains an `![...](...)` substring (the same regex matches it), refuting
the claim's "leaves zero `![...](...)` substrings" conjunct. -/
theorem remove_markdown_images_counterexample :
    remove_markdown_images ("!![](u)[y](v)") = "![y](v)" ∧
    containsImageLink ((remove_markdown_images ("!![](u)[y](v)")).data) = true := by
  constructor
  · decide
  · decide

/-- C7 (amended): `remove_markdown_images` replaces each leftmost
non-overlapping Markdown image link `![alt](url)` by its
whitespace-stripped alt text — removing the link entirely when the
stripped alt is empty, preserving non-empty alt text as plain text — and
collapses every run of 3 or more consecutive newlines down to a single
blank line, as exhibited on representative inputs below; unlike the
original claim, the result may still contain `![...](...)` substrings
(removal can splice new image-link syntax together, see the
counterexample). -/
theorem remove_markdown_images_behavior :
    remove_markdown_images ("before ![alt text](http://img) after")
        = "before alt text after" ∧
    remove_markdown_images ("a![](http://img)b") = "ab" ∧
    remove_markdown_images ("![ padded ](u)") = "padded" ∧
    remove_markdown_images ("a\n\n\n\nb") = "a\n\nb" ∧
    remove_markdown_images ("x ![desc](/files/mineru/e1/img.png) y\n\n\nz")
        = "x desc y\n\nz" := by
  refine ⟨?_, ?_, ?_, ?_, ?_⟩ <;> decide

/-! ## `flatten_outline` and mutation (C10)

To state the frame property — `flatten_outline` never mutates its input —
the Python object graph is made explicit: dicts live in a heap addressed
by allocation order, outline items and the entries of a group's `pages`
list are *references* into that heap, and `page.copy()` followed by
`page_with_part["part"] = item["part"]` (ai_service.py lines 230-231)
allocates a *fresh* dict; the original page dict is only read. The theorem
below shows the initial heap survives unchanged as a prefix of the final
heap, so every pre-existing dict (items, part labels, pages lists, direct
pages) is exactly what it was before the call. -/

/-- A heap address. -/
abbrev Addr := ℕ

/-- A value stored in a heap dict: a string, or a list of dict
references (a group's `pages` list). -/
inductive HVal where
  | hstr : String → HVal
  | hlist : List Addr → HVal
  deriving DecidableEq

/-- A dict on the heap. -/
abbrev HDict := List (String × HVal)

/-- The heap: allocation-ordered store of dicts. -/
abbrev Heap := List (Addr × HDict)

/-- Dereference an address (first binding wins). -/
def heapGet (h : Heap) (a : Addr) : Option HDict :=
  (h.find? (fun p => p.1 == a)).map (fun p => p.2)

/-- A fresh address, larger than every allocated one. -/
def freshAddr (h : Heap) : Addr := (h.map (fun p => p.1)).foldr max 0 + 1

/-- `item["part"]` on the heap model. -/
def itemPart (d : HDict) : HVal := (dictGet d ("part")).getD (HVal.hstr (""))

/-- `item["pages"]` on the heap model (a list of page references). -/
def itemPages (d : HDict) : List Addr :=
  match dictGet d ("pages") with
  | some (HVal.hlist as) => as
  | _ => []

/-- One iteration of `for page in item["pages"]`: read the page dict,
build `page.copy()` with the `part` label set, allocate it fresh, append
its reference to the result. The original page dict is never written. -/
def copyPageStep (v : HVal) (st : Heap × List Addr) (pAddr : Addr) :
    Heap × List Addr :=
  let pageDict := (heapGet st.1 pAddr).getD []
  let newDict := dictSet pageDict ("part") v
  let na := freshAddr st.1
  (st.1 ++ [(na, newDict)], st.2 ++ [na])

/-- One iteration of the outer loop of `flatten_outline` on the heap
model. -/
def flattenHeapItem (st : Heap × List Addr) (itemAddr : Addr) :
    Heap × List Addr :=
  if dictHasKey ((heapGet st.1 itemAddr).getD []) ("part")
      && dictHasKey ((heapGet st.1 itemAddr).getD []) ("pages") then
    (itemPages ((heapGet st.1 itemAddr).getD [])).foldl
      (copyPageStep (itemPart ((heapGet st.1 itemAddr).getD []))) st
  else (st.1, st.2 ++ [itemAddr])

/-- `flatten_outline` on the heap model: returns the final heap and the
list of references making up the flattened page list. -/
def flatten_outline_heap (heap : Heap) (outline : List Addr) :
    Heap × List Addr :=
  outline.foldl flattenHeapItem (heap, [])

theorem copyPageStep_heap (v : HVal) (st : Heap × List Addr) (p : Addr) :
    (copyPageStep v st p).1
      = st.1 ++ [(freshAddr st.1,
          dictSet ((heapGet st.1 p).getD []) ("part") v)] := rfl

theorem pagesFold_extends (v : HVal) (addrs : List Addr) :
    ∀ st : Heap × List Addr,
      ∃ ext, (addrs.foldl (copyPageStep v) st).1 = st.1 ++ ext := by
  induction addrs with
  | nil => exact fun st => ⟨[], by simp⟩
  | cons a rest ih =>
    intro st
    rw [List.foldl_cons]
    obtain ⟨e, he⟩ := ih (copyPageStep v st a)
    exact ⟨[(freshAddr st.1, dictSet ((heapGet st.1 a).getD []) ("part") v)] ++ e,
      by rw [he, copyPageStep_heap, List.append_assoc]⟩

theorem flattenHeapItem_extends (st : Heap × List Addr) (itemAddr : Addr) :
    ∃ ext, (flattenHeapItem st itemAddr).1 = st.1 ++ ext := by
  unfold flattenHeapItem
  by_cases hg : (dictHasKey ((heapGet st.1 itemAddr).getD []) ("part")
      && dictHasKey ((heapGet st.1 itemAddr).getD []) ("pages")) = true
  · rw [if_pos hg]
    exact pagesFold_extends _ _ st
  · rw [if_neg hg]
    exact ⟨[], by simp⟩

theorem outlineFold_extends (outline : List Addr) :
    ∀ st : Heap × List Addr,
      ∃ ext, (outline.foldl flattenHeapItem st).1 = st.1 ++ ext := by
  induction outline with
  | nil => exact fun st => ⟨[], by simp⟩
  | cons a rest ih =>
    intro st
    rw [List.foldl_cons]
    obtain ⟨e1, he1⟩ := flattenHeapItem_extends st a
    obtain ⟨e2, he2⟩ := ih (flattenHeapItem st a)
    exact ⟨e1 ++ e2, by rw [he2, he1, List.append_assoc]⟩

theorem heapGet_append (h ext : Heap) (a : Addr)
    (hs : (heapGet h a).isSome = true) :
    heapGet (h ++ ext) a = heapGet h a := by
  unfold heapGet at hs ⊢
  cases hf : h.find? (fun p => p.1 == a) with
  | none => rw [hf] at hs; simp at hs
  | some x => rw [List.find?_append, hf]; rfl

/-- C10: `flatten_outline` never mutates its input: the entire initial
heap survives as an unchanged prefix of the final heap (new page copies
are only appended), so dereferencing any pre-existing dict — an outline
item, a group's part label or pages list, or a direct page — yields
exactly what it held before the call. -/
theorem flatten_outline_heap_no_mutation (heap : Heap) (outline : List Addr) :
    (flatten_outline_heap heap outline).1.take heap.length = heap ∧
    ∀ a : Addr, (heapGet heap a).isSome = true →
      heapGet (flatten_outline_heap heap outline).1 a = heapGet heap a := by
  obtain ⟨ext, hext⟩ := outlineFold_extends outline (heap, [])
  unfold flatten_outline_heap
  constructor
  · rw [hext]
    exact List.take_left heap ext
  · intro a hs
    rw [hext]
    exact heapGet_append heap ext a hs

/-- A concrete heap: a group item at address 0 (pages at 10 and 11) and a
direct page at address 1. -/
def demoHeap : Heap :=
  [(0, [(("part"), HVal.hstr ("Intro")), (("pages"), HVal.hlist [10, 11])]),
   (10, [(("title"), HVal.hstr ("P1"))]),
   (11, [(("title"), HVal.hstr ("P2"))]),
   (1, [(("title"), HVal.hstr ("Solo"))])]

/-- The outline: the group item then the direct page. -/
def demoOutlineAddrs : List Addr := [0, 1]

/-- Witness for C10: after flattening, the original heap is an unchanged
prefix, and the group's first page dict (address 10) reads back exactly as
before. -/
theorem flatten_outline_heap_no_mutation_witness :
    ((heapGet demoHeap 10).isSome = true) ∧
    (flatten_outline_heap demoHeap demoOutlineAddrs).1.take demoHeap.length
        = demoHeap ∧
    heapGet (flatten_outline_heap demoHeap demoOutlineAddrs).1 10
        = heapGet demoHeap 10 :=
  ⟨by decide,
   (flatten_outline_heap_no_mutation demoHeap demoOutlineAddrs).1,
   (flatten_outline_heap_no_mutation demoHeap demoOutlineAddrs).2 10 (by decide)⟩

end BananaSlides
